import Mathlib

/-!
Verification of the fitness preference-dataset pipeline: the interactive
labeling session (`label_preferences.py`), the formatter and the
train/validation/test splitter (`format_dataset.py`).

The Python sources are shallowly embedded: dictionaries become structures
(a key that the code reads with `.get` and that may be absent becomes an
`Option` field), the interactive loop becomes a recursive function over the
remaining example indices that consumes a list of reviewer input lines, and
exceptions become `Except`/`Option` results.  Floats occurring as split
fractions and temperatures are embedded as rationals.
-/

namespace Fitness

/-- Metadata attached to a prompt/response pair by `generate_responses.py`
(`temp_a`, `temp_b`, `model`, `generated_at`, `prompt_index`).
`format_dataset.py` reads `model` with `.get`, so it is optional here. -/
structure PairMeta where
  temp_a : ℚ
  temp_b : ℚ
  model : Option String
  generated_at : String
  prompt_index : ℕ
deriving DecidableEq

instance : Inhabited PairMeta :=
  ⟨{ temp_a := 0, temp_b := 0, model := none, generated_at := "", prompt_index := 0 }⟩

/-- A prompt/response pair as loaded from `fitness_response_pairs.json`:
`{prompt, response_a, response_b, metadata}`. -/
structure Pair where
  prompt : String
  response_a : String
  response_b : String
  metadata : PairMeta
deriving DecidableEq

instance : Inhabited Pair :=
  ⟨{ prompt := "", response_a := "", response_b := "", metadata := default }⟩

/-- A labeled record: the copied pair dictionary with the keys added by
`label_session` (lines 132-151 of `label_preferences.py`).  The fields that
the code adds only on some paths, or that downstream code reads with `.get`,
are `Option`s; `none` models an absent dictionary key — in particular the
`equal` key is only ever written in the `equal` branch. -/
structure LabeledRecord where
  prompt : String
  response_a : String
  response_b : String
  metadata : PairMeta
  chosen : String
  rejected : String
  preference : Option String
  equal : Option Bool
  reasoning : Option String
  labeled_at : Option String
  labeler : Option String
deriving DecidableEq

instance : Inhabited LabeledRecord :=
  ⟨{ prompt := "", response_a := "", response_b := "", metadata := default,
     chosen := "", rejected := "", preference := none, equal := none,
     reasoning := none, labeled_at := none, labeler := none }⟩

/-- Python's `str.strip()` on a character list: drop whitespace from both
ends. -/
def stripChars (cs : List Char) : List Char :=
  ((cs.dropWhile Char.isWhitespace).reverse.dropWhile Char.isWhitespace).reverse

/-- `input(...).lower().strip()` from `get_preference`
(`label_preferences.py` line 40): lowercase every character, then strip
surrounding whitespace. -/
def lowerStrip (s : String) : String :=
  String.mk (stripChars (s.data.map Char.toLower))

/-- The list of choices `get_preference` accepts
(`label_preferences.py` line 41): `['a', 'b', 'equal', 'skip', 'q', 'quit']`. -/
def acceptedChoices : List String := ["a", "b", "equal", "skip", "q", "quit"]

/-- `PreferenceLabelingTool.get_preference` (lines 37-43): read input lines,
lowercase and strip each, return the first accepted one together with the
unread lines; re-prompt (consume and continue) on anything else.  The Python
loop blocks forever when input runs out; here that is `none`. -/
def get_preference : List String → Option (String × List String)
  | [] => none
  | s :: rest =>
    if lowerStrip s ∈ acceptedChoices then some (lowerStrip s, rest)
    else get_preference rest

/-- The record-materialisation block of `label_session` (lines 132-151):
`item = self.data[idx].copy()` followed by the `preference` branches and the
common `reasoning`/`labeled_at`/`labeler` keys.  Note that only the `else`
(equal) branch writes an `equal` key. -/
def labelItem (p : Pair) (preference reasoning now : String) : LabeledRecord :=
  if preference = "a" then
    { prompt := p.prompt, response_a := p.response_a, response_b := p.response_b,
      metadata := p.metadata, chosen := p.response_a, rejected := p.response_b,
      preference := some "a", equal := none, reasoning := some reasoning,
      labeled_at := some now, labeler := some "primary" }
  else if preference = "b" then
    { prompt := p.prompt, response_a := p.response_a, response_b := p.response_b,
      metadata := p.metadata, chosen := p.response_b, rejected := p.response_a,
      preference := some "b", equal := none, reasoning := some reasoning,
      labeled_at := some now, labeler := some "primary" }
  else
    { prompt := p.prompt, response_a := p.response_a, response_b := p.response_b,
      metadata := p.metadata, chosen := p.response_a, rejected := p.response_b,
      preference := some "equal", equal := some true, reasoning := some reasoning,
      labeled_at := some now, labeler := some "primary" }

/-- The mutable pieces of `PreferenceLabelingTool` state that `label_session`
touches, together with the observation points the specification talks about:
the input lines still unread, the snapshots written by `save_progress`, the
session counters, the indices displayed to the reviewer, and whether the
session ended through `quit`. -/
structure SessionState where
  data : List Pair
  inputs : List String
  labeled_data : List LabeledRecord
  saves : List (List LabeledRecord)
  labeled_this_session : ℕ
  skipped_count : ℕ
  presented : List ℕ
  quitFlag : Bool
deriving DecidableEq

/-- The `for idx in range(start_idx, min(end_idx, len(self.data)))` loop of
`label_session` (lines 107-161), one recursive step per index: skip silently
when the prompt is already labeled, otherwise display the pair, read a
preference, and either quit (break), skip, or materialise the record, with an
auto-save after every `auto_save_frequency`-th label of the session.
`none` models the session blocking on exhausted input. -/
def sessionLoop (skipSet : List String) (freq : ℕ) (now : String) :
    List ℕ → SessionState → Option SessionState
  | [], st => some st
  | idx :: rest, st =>
    if (st.data.getD idx default).prompt ∈ skipSet then
      sessionLoop skipSet freq now rest st
    else
      match get_preference st.inputs with
      | none => none
      | some (choice, rem) =>
        if choice = "q" ∨ choice = "quit" then
          some { st with presented := st.presented ++ [idx], inputs := rem, quitFlag := true }
        else if choice = "skip" then
          sessionLoop skipSet freq now rest
            { st with presented := st.presented ++ [idx], inputs := rem,
                      skipped_count := st.skipped_count + 1 }
        else
          match rem with
          | [] => none
          | r :: rem2 =>
            sessionLoop skipSet freq now rest
              { st with presented := st.presented ++ [idx], inputs := rem2,
                        labeled_data := st.labeled_data ++
                          [labelItem (st.data.getD idx default) choice r now],
                        labeled_this_session := st.labeled_this_session + 1,
                        saves :=
                          if (st.labeled_this_session + 1) % freq = 0 then
                            st.saves ++ [st.labeled_data ++
                              [labelItem (st.data.getD idx default) choice r now]]
                          else st.saves }

/-- `end_idx = len(self.data) if num_examples is None else start_idx + num_examples`
(line 81). -/
def endIdx (dataLen start_idx : ℕ) : Option ℕ → ℕ
  | none => dataLen
  | some n => start_idx + n

/-- `PreferenceLabelingTool.label_session` (lines 68-179): compute the
skip-set of already-labeled prompts, run the loop over
`range(start_idx, min(end_idx, len(data)))`, and perform the final
`save_progress()` on either termination path.  `labeled_data` is the
collection loaded at session start; `inputs` is the stream of reviewer
input lines; `now` stands in for `datetime.now().isoformat()`. -/
def label_session (data : List Pair) (labeled_data : List LabeledRecord)
    (inputs : List String) (start_idx : ℕ) (num_examples : Option ℕ)
    (auto_save_frequency : ℕ) (now : String) : Option SessionState :=
  match sessionLoop (labeled_data.map (fun item => item.prompt)) auto_save_frequency now
      (List.range' start_idx (min (endIdx data.length start_idx num_examples) data.length - start_idx))
      { data := data, inputs := inputs, labeled_data := labeled_data, saves := [],
        labeled_this_session := 0, skipped_count := 0, presented := [], quitFlag := false } with
  | none => none
  | some st => some { st with saves := st.saves ++ [st.labeled_data] }

/-- The `metadata` sub-dictionary of a canonical record
(`format_dataset.py` lines 63-72). -/
structure CanonMetadata where
  preference : String
  reasoning : String
  equal : Bool
  labeled_at : String
  temp_a : ℚ
  temp_b : ℚ
  model : String
  domain : String
deriving DecidableEq

/-- A canonical record in the standard RLHF format
(`format_dataset.py` lines 59-73). -/
structure CanonicalRecord where
  prompt : String
  chosen : String
  rejected : String
  metadata : CanonMetadata
deriving DecidableEq

/-- The `formatted_item` construction of `convert_to_standard_format`
(lines 59-73), with the `.get` defaults of the source. -/
def formatItem (item : LabeledRecord) : CanonicalRecord :=
  { prompt := item.prompt, chosen := item.chosen, rejected := item.rejected,
    metadata :=
      { preference := item.preference.getD "unknown",
        reasoning := item.reasoning.getD "",
        equal := item.equal.getD false,
        labeled_at := item.labeled_at.getD "",
        temp_a := item.metadata.temp_a,
        temp_b := item.metadata.temp_b,
        model := item.metadata.model.getD "claude-sonnet-4-20250514",
        domain := "fitness" } }

/-- `convert_to_standard_format` (lines 44-83): drop an item when
`item.get('equal', False) and not include_equal`, otherwise project it to the
canonical schema; order-preserving. -/
def convert_to_standard_format (data : List LabeledRecord) (include_equal : Bool) :
    List CanonicalRecord :=
  data.filterMap (fun item =>
    if item.equal.getD false ∧ include_equal = false then none
    else some (formatItem item))

/-- One step of the 64-bit linear congruential generator standing in for the
pseudo-random source.  `sklearn.model_selection.train_test_split` draws its
permutation from `numpy.random.RandomState(random_state)`; the claims under
verification depend only on the permutation being a permutation determined by
the seed, not on which permutation MT19937 denotes, so the generator is
modelled by Knuth's MMIX LCG. -/
def lcgNext (s : ℕ) : ℕ :=
  (6364136223846793005 * s + 1442695040888963407) % 18446744073709551616

/-- Seeded Fisher-Yates draft of a list: repeatedly pick the element at the
generator-chosen position and recurse on the rest.  `fuel` bounds the
recursion and is instantiated with the list length in `shuffle`. -/
def shuffleFuel : ℕ → ℕ → List α → List α
  | 0, _, xs => xs
  | fuel + 1, s, xs =>
    if h : xs.length = 0 then xs
    else
      xs.get ⟨s % xs.length, Nat.mod_lt _ (Nat.pos_of_ne_zero h)⟩ ::
        shuffleFuel fuel (lcgNext s) (xs.eraseIdx (s % xs.length))

/-- The seeded permutation applied by `train_test_split`: numpy's
`RandomState(seed).permutation(n)` is a Fisher-Yates shuffle determined by the
seed and the length alone, modelled here with the LCG as the random source. -/
def shuffle (seed : ℕ) (xs : List α) : List α := shuffleFuel xs.length seed xs

/-- `sklearn.model_selection._split._validate_shuffle_split` for a float
`test_size` and `train_size=None`: a float `test_size` outside the open
interval (0, 1) is rejected; otherwise `n_test = ceil(test_size * n)`,
`n_train = n - n_test`, and an empty resulting train set is rejected.
Returns `(n_train, n_test)`. -/
def validate_shuffle_split (n : ℕ) (test_size : ℚ) : Except String (ℕ × ℕ) :=
  if test_size ≤ 0 ∨ 1 ≤ test_size then
    Except.error "test_size should be a float in the (0, 1) range"
  else if n - (⌈test_size * (n : ℚ)⌉).toNat = 0 then
    Except.error "the resulting train set will be empty"
  else
    Except.ok (n - (⌈test_size * (n : ℚ)⌉).toNat, (⌈test_size * (n : ℚ)⌉).toNat)

/-- `sklearn.model_selection.train_test_split(data, test_size, random_state)`
with `shuffle=True` and `train_size=None`: validate the sizes, draw the
seeded permutation, and return
`(permuted[n_test : n_test + n_train], permuted[:n_test])`. -/
def train_test_split (data : List α) (test_size : ℚ) (random_state : ℕ) :
    Except String (List α × List α) :=
  match validate_shuffle_split data.length test_size with
  | Except.error e => Except.error e
  | Except.ok (nTrain, nTest) =>
    Except.ok (((shuffle random_state data).drop nTest).take nTrain,
      (shuffle random_state data).take nTest)

/-- `create_splits` (`format_dataset.py` lines 85-125): first carve out the
test set, then split the remainder with `val_proportion = val_size / (1 - test_size)`,
both calls seeded with the same `random_seed`.  Returns `(train, validation, test)`. -/
def create_splits (data : List α) (test_size val_size : ℚ) (random_seed : ℕ) :
    Except String (List α × List α × List α) :=
  match train_test_split data test_size random_seed with
  | Except.error e => Except.error e
  | Except.ok (train_val, test) =>
    match train_test_split train_val (val_size / (1 - test_size)) random_seed with
    | Except.error e => Except.error e
    | Except.ok (train, val) => Except.ok (train, val, test)

/-- Sample pair metadata, as `generate_responses.py` produces it
(temperatures 0.7 and 1.0). -/
def samplePairMeta : PairMeta :=
  { temp_a := mkRat 7 10, temp_b := 1, model := some "claude-sonnet-4-20250514",
    generated_at := "2025-01-01T00:00:00", prompt_index := 0 }

/-- Sample pairs used to evaluate the embedding on concrete inputs. -/
def samplePair : Pair :=
  { prompt := "Q1", response_a := "Short.", response_b := "Long answer...",
    metadata := samplePairMeta }

def samplePair2 : Pair :=
  { prompt := "Q2", response_a := "RA2", response_b := "RB2",
    metadata := samplePairMeta }

def samplePair3 : Pair :=
  { prompt := "Q3", response_a := "RA3", response_b := "RB3",
    metadata := samplePairMeta }

/-- A progress file holding labeled records for the prompts `Q1` and `Q2`. -/
def sampleProgress : List LabeledRecord :=
  [labelItem samplePair "a" "r1" "t0", labelItem samplePair2 "b" "r2" "t0"]

/-- A labeled collection containing an `equal`-labeled record, to exercise
the formatter's drop path. -/
def sampleLabeled : List LabeledRecord :=
  [labelItem samplePair "a" "" "t0", labelItem samplePair2 "equal" "" "t0",
   labelItem samplePair3 "b" "" "t0"]

/-- Three canonical records, as the formatter derives them. -/
def sampleCanonicals : List CanonicalRecord :=
  [formatItem (labelItem samplePair "a" "" "t0"),
   formatItem (labelItem samplePair2 "b" "" "t0"),
   formatItem (labelItem samplePair3 "a" "" "t0")]

/-! ### Splitter lemmas -/

theorem cons_eraseIdx_perm {α : Type*} {l : List α} {i : ℕ} (h : i < l.length) :
    (l.get ⟨i, h⟩ :: l.eraseIdx i).Perm l := by
  conv_rhs => rw [← List.take_append_drop i l, ← List.getElem_cons_drop l i h]
  rw [List.eraseIdx_eq_take_drop_succ, List.get_eq_getElem]
  exact List.perm_middle.symm

theorem shuffleFuel_perm {α : Type*} :
    ∀ (fuel s : ℕ) (xs : List α), (shuffleFuel fuel s xs).Perm xs := by
  intro fuel
  induction fuel with
  | zero => intro s xs; exact List.Perm.refl _
  | succ n ih =>
    intro s xs
    rw [shuffleFuel]
    split
    · exact List.Perm.refl _
    · exact List.Perm.trans (List.Perm.cons _ (ih _ _)) (cons_eraseIdx_perm _)

theorem shuffle_perm {α : Type*} (seed : ℕ) (xs : List α) :
    (shuffle seed xs).Perm xs :=
  shuffleFuel_perm xs.length seed xs

theorem shuffle_length {α : Type*} (seed : ℕ) (xs : List α) :
    (shuffle seed xs).length = xs.length :=
  (shuffle_perm seed xs).length_eq

/-- Structure of a successful `validate_shuffle_split`. -/
theorem validate_shuffle_split_ok {n : ℕ} {q : ℚ} {nTrain nTest : ℕ}
    (h : validate_shuffle_split n q = Except.ok (nTrain, nTest)) :
    nTest = (⌈q * (n : ℚ)⌉).toNat ∧ nTrain = n - nTest ∧ nTest < n := by
  unfold validate_shuffle_split at h
  split at h
  · exact absurd h (by simp)
  · split at h
    · exact absurd h (by simp)
    · next hne =>
      injection h with h'
      injection h' with h1 h2
      subst h2; subst h1
      refine ⟨rfl, rfl, ?_⟩
      omega

/-- `validate_shuffle_split` rejects a float `test_size` outside (0, 1). -/
theorem validate_shuffle_split_error {n : ℕ} {q : ℚ} (hq : q ≤ 0 ∨ 1 ≤ q) :
    validate_shuffle_split n q =
      Except.error "test_size should be a float in the (0, 1) range" := by
  unfold validate_shuffle_split
  rw [if_pos hq]

theorem train_test_split_error {α : Type*} (data : List α) {q : ℚ} (seed : ℕ)
    (hq : q ≤ 0 ∨ 1 ≤ q) :
    train_test_split data q seed =
      Except.error "test_size should be a float in the (0, 1) range" := by
  unfold train_test_split
  rw [validate_shuffle_split_error hq]

/-- Structure of a successful `train_test_split`: the two returned lists
permute the input and the test side has the ceiling size. -/
theorem train_test_split_spec {α : Type*} {data tr te : List α} {q : ℚ} {seed : ℕ}
    (h : train_test_split data q seed = Except.ok (tr, te)) :
    (tr ++ te).Perm data ∧ te.length = (⌈q * (data.length : ℚ)⌉).toNat := by
  unfold train_test_split at h
  cases hv : validate_shuffle_split data.length q with
  | error e => rw [hv] at h; exact absurd h (by simp)
  | ok p =>
    obtain ⟨nTrain, nTest⟩ := p
    rw [hv] at h
    obtain ⟨hTest, hTrain, hLt⟩ := validate_shuffle_split_ok hv
    subst hTest; subst hTrain
    injection h with h'
    injection h' with h1 h2
    have hlen : (shuffle seed data).length = data.length := shuffle_length seed data
    have hdropLen : ((shuffle seed data).drop (⌈q * (data.length : ℚ)⌉).toNat).length =
        data.length - (⌈q * (data.length : ℚ)⌉).toNat := by
      rw [List.length_drop, hlen]
    have hTake : ((shuffle seed data).drop (⌈q * (data.length : ℚ)⌉).toNat).take
          (data.length - (⌈q * (data.length : ℚ)⌉).toNat) =
        (shuffle seed data).drop (⌈q * (data.length : ℚ)⌉).toNat := by
      rw [List.take_of_length_le (le_of_eq hdropLen)]
    subst h1; subst h2
    constructor
    · rw [hTake]
      refine List.Perm.trans (List.perm_append_comm) ?_
      rw [List.take_append_drop]
      exact shuffle_perm seed data
    · rw [List.length_take, hlen]
      exact Nat.min_eq_left (Nat.le_of_lt hLt)

/-! ### Labeling-session lemmas -/

/-- A successful `get_preference` only returns one of the six accepted
choices. -/
theorem get_preference_sound :
    ∀ {inputs : List String} {c : String} {rem : List String},
      get_preference inputs = some (c, rem) → c ∈ acceptedChoices := by
  intro inputs
  induction inputs with
  | nil => intro c rem h; exact absurd h (by simp [get_preference])
  | cons s rest ih =>
    intro c rem h
    rw [get_preference] at h
    split at h
    · next hmem =>
      injection h with h'
      injection h' with h1 h2
      subst h1
      exact hmem
    · exact ih h

/-- `List.filter` step for the skip-set predicate when the head index is
already labeled. -/
theorem filter_skip_cons (data : List Pair) (skipSet : List String) (idx : ℕ)
    (rest : List ℕ) (h : (data.getD idx default).prompt ∈ skipSet) :
    (idx :: rest).filter (fun i => decide ((data.getD i default).prompt ∉ skipSet)) =
      rest.filter (fun i => decide ((data.getD i default).prompt ∉ skipSet)) := by
  rw [List.filter_cons, if_neg (fun hc => (of_decide_eq_true hc) h)]

/-- `List.filter` step for the skip-set predicate when the head index is not
yet labeled. -/
theorem filter_present_cons (data : List Pair) (skipSet : List String) (idx : ℕ)
    (rest : List ℕ) (h : (data.getD idx default).prompt ∉ skipSet) :
    (idx :: rest).filter (fun i => decide ((data.getD i default).prompt ∉ skipSet)) =
      idx :: rest.filter (fun i => decide ((data.getD i default).prompt ∉ skipSet)) := by
  rw [List.filter_cons, if_pos (decide_eq_true h)]

/-- Invariant of the labeling loop: the input data is untouched; the labeled
collection only grows, by records materialised through `labelItem` from an
in-range pair and a non-skip, non-quit accepted choice; the auto-saves taken
during the loop are exactly the snapshots at the labels whose session count
is a multiple of the save frequency; and when no `quit` occurred, the indices
presented to the reviewer are exactly the processed indices whose prompt is
outside the skip-set. -/
theorem sessionLoop_spec (skipSet : List String) (freq : ℕ) (now : String) :
    ∀ (idxs : List ℕ) (st st' : SessionState),
      sessionLoop skipSet freq now idxs st = some st' →
      (∀ i ∈ idxs, i < st.data.length) →
      st'.data = st.data ∧
      (∃ new : List LabeledRecord,
        st'.labeled_data = st.labeled_data ++ new ∧
        st'.labeled_this_session = st.labeled_this_session + new.length ∧
        (∀ rec ∈ new, ∃ p c re, p ∈ st.data ∧
          c ∈ (["a", "b", "equal"] : List String) ∧ rec = labelItem p c re now) ∧
        (∃ newSaves : List (List LabeledRecord),
          st'.saves = st.saves ++ newSaves ∧
          (∀ sv ∈ newSaves, ∃ k, 0 < k ∧ k ≤ new.length ∧
            (st.labeled_this_session + k) % freq = 0 ∧
            sv = st.labeled_data ++ new.take k) ∧
          (∀ k, 0 < k → k ≤ new.length →
            (st.labeled_this_session + k) % freq = 0 →
            (st.labeled_data ++ new.take k) ∈ newSaves))) ∧
      (st'.quitFlag = false → st.quitFlag = false ∧
        st'.presented = st.presented ++
          idxs.filter (fun i => decide ((st.data.getD i default).prompt ∉ skipSet))) := by
  intro idxs
  induction idxs with
  | nil =>
    intro st st' h _
    rw [sessionLoop] at h
    injection h with h
    subst h
    exact ⟨rfl, ⟨[], by simp, by simp, by simp, [], by simp, by simp,
      fun k h1 h2 h3 => by simp at h2; omega⟩, fun hq => ⟨hq, by simp⟩⟩
  | cons idx rest ih =>
    intro st st' h hr
    rw [sessionLoop] at h
    by_cases hskip : (st.data.getD idx default).prompt ∈ skipSet
    · rw [if_pos hskip] at h
      obtain ⟨hdata, hcore, hpres⟩ :=
        ih st st' h (fun i hi => hr i (List.mem_cons_of_mem idx hi))
      refine ⟨hdata, hcore, fun hqf => ?_⟩
      obtain ⟨hp1, hp2⟩ := hpres hqf
      refine ⟨hp1, ?_⟩
      rw [hp2, filter_skip_cons st.data skipSet idx rest hskip]
    · rw [if_neg hskip] at h
      cases hg : get_preference st.inputs with
      | none => rw [hg] at h; exact absurd h (by simp)
      | some pr =>
        obtain ⟨choice, rem⟩ := pr
        rw [hg] at h
        simp only [] at h
        by_cases hq : choice = "q" ∨ choice = "quit"
        · rw [if_pos hq] at h
          injection h with h
          subst h
          refine ⟨rfl, ⟨[], by simp, by simp, by simp, [], by simp, by simp,
            fun k h1 h2 h3 => by simp at h2; omega⟩, fun hqf => ?_⟩
          simp at hqf
        · rw [if_neg hq] at h
          by_cases hs : choice = "skip"
          · rw [if_pos hs] at h
            obtain ⟨hdata, hcore, hpres⟩ :=
              ih _ st' h (fun i hi => hr i (List.mem_cons_of_mem idx hi))
            refine ⟨hdata, hcore, fun hqf => ?_⟩
            have hpres' : st.quitFlag = false ∧
                st'.presented = (st.presented ++ [idx]) ++
                  rest.filter (fun i => decide ((st.data.getD i default).prompt ∉ skipSet)) :=
              hpres hqf
            refine ⟨hpres'.1, ?_⟩
            rw [hpres'.2, filter_present_cons st.data skipSet idx rest hskip,
              ← List.append_cons]
          · rw [if_neg hs] at h
            cases rem with
            | nil => exact absurd h (by simp)
            | cons r rem2 =>
              simp only [] at h
              obtain ⟨hdata, ⟨new', h1, h2, h3, saves', h4, h5, h6⟩, hpres⟩ :=
                ih _ st' h (fun i hi => hr i (List.mem_cons_of_mem idx hi))
              have HD : st'.data = st.data := hdata
              have H1 : st'.labeled_data =
                  (st.labeled_data ++ [labelItem (st.data.getD idx default) choice r now]) ++
                    new' := h1
              have H2 : st'.labeled_this_session =
                  (st.labeled_this_session + 1) + new'.length := h2
              have H3 : ∀ rec ∈ new', ∃ p c re, p ∈ st.data ∧
                  c ∈ (["a", "b", "equal"] : List String) ∧ rec = labelItem p c re now := h3
              have H4 : st'.saves =
                  (if (st.labeled_this_session + 1) % freq = 0 then
                    st.saves ++
                      [st.labeled_data ++ [labelItem (st.data.getD idx default) choice r now]]
                  else st.saves) ++ saves' := h4
              have H5 : ∀ sv ∈ saves', ∃ k, 0 < k ∧ k ≤ new'.length ∧
                  (st.labeled_this_session + 1 + k) % freq = 0 ∧
                  sv = (st.labeled_data ++
                    [labelItem (st.data.getD idx default) choice r now]) ++ new'.take k := h5
              have H6 : ∀ k, 0 < k → k ≤ new'.length →
                  (st.labeled_this_session + 1 + k) % freq = 0 →
                  ((st.labeled_data ++
                    [labelItem (st.data.getD idx default) choice r now]) ++ new'.take k) ∈
                    saves' := h6
              have HP : st'.quitFlag = false → st.quitFlag = false ∧
                  st'.presented = (st.presented ++ [idx]) ++
                    rest.filter (fun i => decide ((st.data.getD i default).prompt ∉ skipSet)) :=
                hpres
              have hidx : idx < st.data.length := hr idx (List.mem_cons_self idx rest)
              have hpmem : st.data.getD idx default ∈ st.data := by
                rw [List.getD_eq_getElem st.data default hidx]
                exact List.getElem_mem hidx
              have h7 := get_preference_sound hg
              simp only [acceptedChoices, List.mem_cons, List.not_mem_nil, or_false] at h7
              have hcmem : choice ∈ (["a", "b", "equal"] : List String) := by
                rcases h7 with h' | h' | h' | h' | h' | h'
                · subst h'; simp
                · subst h'; simp
                · subst h'; simp
                · exact absurd h' hs
                · exact absurd (Or.inl h') hq
                · exact absurd (Or.inr h') hq
              refine ⟨HD, ?_, ?_⟩
              · refine ⟨labelItem (st.data.getD idx default) choice r now :: new',
                  ?_, ?_, ?_, ?_⟩
                · rw [List.append_cons]
                  exact H1
                · rw [H2]
                  simp only [List.length_cons]
                  omega
                · intro rec hrec
                  rcases List.mem_cons.mp hrec with h' | h'
                  · exact ⟨st.data.getD idx default, choice, r, hpmem, hcmem, h'⟩
                  · exact H3 rec h'
                · refine ⟨(if (st.labeled_this_session + 1) % freq = 0 then
                      [st.labeled_data ++ [labelItem (st.data.getD idx default) choice r now]]
                    else []) ++ saves', ?_, ?_, ?_⟩
                  · rw [H4]
                    by_cases hfreq : (st.labeled_this_session + 1) % freq = 0
                    · rw [if_pos hfreq, if_pos hfreq, List.append_assoc]
                    · rw [if_neg hfreq, if_neg hfreq, List.nil_append]
                  · intro sv hsv
                    rcases List.mem_append.mp hsv with h' | h'
                    · by_cases hfreq : (st.labeled_this_session + 1) % freq = 0
                      · rw [if_pos hfreq] at h'
                        have hsv' := List.mem_singleton.mp h'
                        refine ⟨1, Nat.one_pos, by simp only [List.length_cons]; omega,
                          hfreq, ?_⟩
                        rw [hsv']
                        rfl
                      · rw [if_neg hfreq] at h'
                        exact absurd h' (List.not_mem_nil sv)
                    · obtain ⟨k', hk0, hkle, hkf, hsv'⟩ := H5 sv h'
                      refine ⟨k' + 1, Nat.succ_pos k',
                        by simp only [List.length_cons]; omega, ?_, ?_⟩
                      · have heq : st.labeled_this_session + (k' + 1) =
                            st.labeled_this_session + 1 + k' := by omega
                        rw [heq]
                        exact hkf
                      · rw [hsv']
                        show (st.labeled_data ++
                            [labelItem (st.data.getD idx default) choice r now]) ++
                              new'.take k' =
                          st.labeled_data ++
                            (labelItem (st.data.getD idx default) choice r now ::
                              new'.take k')
                        rw [← List.append_cons]
                  · intro k hk0 hkle hkf
                    cases k with
                    | zero => omega
                    | succ k' =>
                      by_cases hk'0 : k' = 0
                      · subst hk'0
                        refine List.mem_append.mpr (Or.inl ?_)
                        rw [if_pos (show (st.labeled_this_session + 1) % freq = 0 from hkf)]
                        exact List.mem_singleton.mpr rfl
                      · have hk'pos : 0 < k' := Nat.pos_of_ne_zero hk'0
                        have hk'le : k' ≤ new'.length := by
                          simp only [List.length_cons] at hkle
                          omega
                        have hk'f : (st.labeled_this_session + 1 + k') % freq = 0 := by
                          have heq : st.labeled_this_session + 1 + k' =
                              st.labeled_this_session + (k' + 1) := by omega
                          rw [heq]
                          exact hkf
                        refine List.mem_append.mpr (Or.inr ?_)
                        have hmem := H6 k' hk'pos hk'le hk'f
                        show st.labeled_data ++
                            (labelItem (st.data.getD idx default) choice r now ::
                              new'.take k') ∈ saves'
                        rw [List.append_cons]
                        exact hmem
              · intro hqf
                obtain ⟨hq1, hq2⟩ := HP hqf
                refine ⟨hq1, ?_⟩
                rw [hq2, filter_present_cons st.data skipSet idx rest hskip,
                  ← List.append_cons]


/-- What a completed `label_session` run guarantees, in terms of the state
loaded at session start: the data is unchanged; the labeled collection is the
loaded one plus the new records, each materialised by `labelItem`; the saved
snapshots are the auto-saves at multiples of the save frequency followed by
the final save of the whole collection; and if the reviewer never quit, the
presented indices are exactly the in-range indices whose prompt is not in the
skip-set. -/
theorem label_session_spec (data : List Pair) (init : List LabeledRecord)
    (inputs : List String) (start_idx : ℕ) (num_examples : Option ℕ) (freq : ℕ)
    (now : String) (st : SessionState)
    (h : label_session data init inputs start_idx num_examples freq now = some st) :
    st.data = data ∧
    (∃ new : List LabeledRecord,
      st.labeled_data = init ++ new ∧
      st.labeled_this_session = new.length ∧
      (∀ rec ∈ new, ∃ p c re, p ∈ data ∧
        c ∈ (["a", "b", "equal"] : List String) ∧ rec = labelItem p c re now) ∧
      (∃ checkpoints : List (List LabeledRecord),
        st.saves = checkpoints ++ [init ++ new] ∧
        (∀ sv ∈ checkpoints, ∃ k, 0 < k ∧ k ≤ new.length ∧ k % freq = 0 ∧
          sv = init ++ new.take k) ∧
        (∀ k, 0 < k → k ≤ new.length → k % freq = 0 →
          (init ++ new.take k) ∈ checkpoints))) ∧
    (st.quitFlag = false →
      st.presented = (List.range' start_idx
          (min (endIdx data.length start_idx num_examples) data.length - start_idx)).filter
        (fun i => decide ((data.getD i default).prompt ∉
          init.map (fun item => item.prompt)))) := by
  unfold label_session at h
  cases hl : sessionLoop (init.map (fun item => item.prompt)) freq now
      (List.range' start_idx
        (min (endIdx data.length start_idx num_examples) data.length - start_idx))
      { data := data, inputs := inputs, labeled_data := init, saves := [],
        labeled_this_session := 0, skipped_count := 0, presented := [],
        quitFlag := false } with
  | none => rw [hl] at h; exact absurd h (by simp)
  | some st0 =>
    rw [hl] at h
    injection h with h
    subst h
    have hrange : ∀ i ∈ List.range' start_idx
        (min (endIdx data.length start_idx num_examples) data.length - start_idx),
        i < data.length := by
      intro i hi
      have := List.mem_range'_1.mp hi
      omega
    obtain ⟨hdata, ⟨new, h1, h2, h3, saves', h4, h5, h6⟩, hpres⟩ :=
      sessionLoop_spec (init.map (fun item => item.prompt)) freq now _ _ st0 hl hrange
    have HD : st0.data = data := hdata
    have H1 : st0.labeled_data = init ++ new := h1
    have H2 : st0.labeled_this_session = 0 + new.length := h2
    have H3 : ∀ rec ∈ new, ∃ p c re, p ∈ data ∧
        c ∈ (["a", "b", "equal"] : List String) ∧ rec = labelItem p c re now := h3
    have H4 : st0.saves = [] ++ saves' := h4
    have H5 : ∀ sv ∈ saves', ∃ k, 0 < k ∧ k ≤ new.length ∧ (0 + k) % freq = 0 ∧
        sv = init ++ new.take k := h5
    have H6 : ∀ k, 0 < k → k ≤ new.length → (0 + k) % freq = 0 →
        (init ++ new.take k) ∈ saves' := h6
    have HP : st0.quitFlag = false → (false : Bool) = false ∧
        st0.presented = [] ++ (List.range' start_idx
            (min (endIdx data.length start_idx num_examples) data.length - start_idx)).filter
          (fun i => decide ((data.getD i default).prompt ∉
            init.map (fun item => item.prompt))) := hpres
    refine ⟨HD, ⟨new, H1, by rw [H2]; omega, H3, saves', ?_, ?_, ?_⟩, ?_⟩
    · show st0.saves ++ [st0.labeled_data] = saves' ++ [init ++ new]
      rw [H4, H1, List.nil_append]
    · intro sv hsv
      obtain ⟨k, hk0, hkle, hkf, hsv'⟩ := H5 sv hsv
      refine ⟨k, hk0, hkle, ?_, hsv'⟩
      rw [← Nat.zero_add k]
      exact hkf
    · intro k hk0 hkle hkf
      refine H6 k hk0 hkle ?_
      rw [Nat.zero_add]
      exact hkf
    · intro hq
      have hq0 : st0.quitFlag = false := hq
      obtain ⟨_, hp⟩ := HP hq0
      show st0.presented = _
      rw [hp, List.nil_append]

/-! ### Claim theorems: labeling session -/

/-- C1: every record materialised by the labeling session (i.e. every record
of the final collection beyond those loaded at start) is a copy of a loaded
pair with `chosen`/`rejected` assigned from `preference` — `a` picks
`response_a`/`response_b`, `b` picks `response_b`/`response_a`, `equal` picks
`response_a`/`response_b` — and the canonical record the formatter derives
from it preserves exactly these `chosen`/`rejected` values and the
preference. -/
theorem C1_chosen_rejected_consistency (data : List Pair)
    (init : List LabeledRecord) (inputs : List String) (start_idx : ℕ)
    (num_examples : Option ℕ) (freq : ℕ) (now : String) (st : SessionState)
    (h : label_session data init inputs start_idx num_examples freq now = some st) :
    ∀ rec ∈ st.labeled_data, rec ∈ init ∨
      ∃ p ∈ data,
        rec.response_a = p.response_a ∧ rec.response_b = p.response_b ∧
        (rec.preference = some "a" →
          rec.chosen = p.response_a ∧ rec.rejected = p.response_b ∧
          (formatItem rec).chosen = p.response_a ∧
          (formatItem rec).rejected = p.response_b ∧
          (formatItem rec).metadata.preference = "a") ∧
        (rec.preference = some "b" →
          rec.chosen = p.response_b ∧ rec.rejected = p.response_a ∧
          (formatItem rec).chosen = p.response_b ∧
          (formatItem rec).rejected = p.response_a ∧
          (formatItem rec).metadata.preference = "b") ∧
        (rec.preference = some "equal" →
          rec.chosen = p.response_a ∧ rec.rejected = p.response_b ∧
          (formatItem rec).chosen = p.response_a ∧
          (formatItem rec).rejected = p.response_b ∧
          (formatItem rec).metadata.preference = "equal") := by
  obtain ⟨_, ⟨new, hld, _, hnew, _⟩, _⟩ :=
    label_session_spec data init inputs start_idx num_examples freq now st h
  intro rec hrec
  rw [hld] at hrec
  rcases List.mem_append.mp hrec with hmem | hmem
  · exact Or.inl hmem
  · right
    obtain ⟨p, c, re, hp, hc, rfl⟩ := hnew rec hmem
    refine ⟨p, hp, ?_⟩
    simp only [List.mem_cons, List.not_mem_nil, or_false] at hc
    rcases hc with rfl | rfl | rfl
    · simp [labelItem, formatItem]
    · simp [labelItem, formatItem]
    · simp [labelItem, formatItem]

/-- C9 (amended): a record materialised by the labeling session carries an
`equal` key only when its preference is `equal`, in which case the value is
`true`; records with preference `a` or `b` have no `equal` key at all, and
the formatter's `.get('equal', False)` read defaults it to `false` for them. -/
theorem C9_equal_field_shape (data : List Pair)
    (init : List LabeledRecord) (inputs : List String) (start_idx : ℕ)
    (num_examples : Option ℕ) (freq : ℕ) (now : String) (st : SessionState)
    (h : label_session data init inputs start_idx num_examples freq now = some st) :
    ∀ rec ∈ st.labeled_data, rec ∈ init ∨
      ((rec.preference = some "equal" ↔ rec.equal = some true) ∧
       ((rec.preference = some "a" ∨ rec.preference = some "b") →
         rec.equal = none) ∧
       (rec.preference = some "equal" → (formatItem rec).metadata.equal = true) ∧
       ((rec.preference = some "a" ∨ rec.preference = some "b") →
         (formatItem rec).metadata.equal = false)) := by
  obtain ⟨_, ⟨new, hld, _, hnew, _⟩, _⟩ :=
    label_session_spec data init inputs start_idx num_examples freq now st h
  intro rec hrec
  rw [hld] at hrec
  rcases List.mem_append.mp hrec with hmem | hmem
  · exact Or.inl hmem
  · right
    obtain ⟨p, c, re, hp, hc, rfl⟩ := hnew rec hmem
    simp only [List.mem_cons, List.not_mem_nil, or_false] at hc
    rcases hc with rfl | rfl | rfl
    · simp [labelItem, formatItem]
    · simp [labelItem, formatItem]
    · simp [labelItem, formatItem]

/-- C10: a completed labeling session leaves the loaded pair collection
unchanged — labeling augments a copy of each pair, never the pair itself. -/
theorem C10_frame_preservation (data : List Pair)
    (init : List LabeledRecord) (inputs : List String) (start_idx : ℕ)
    (num_examples : Option ℕ) (freq : ℕ) (now : String) (st : SessionState)
    (h : label_session data init inputs start_idx num_examples freq now = some st) :
    st.data = data :=
  (label_session_spec data init inputs start_idx num_examples freq now st h).1

/-- C4: a completed session in which the reviewer never quit presents exactly
the indices of its range `[start_idx, min(end_idx, len(data)))` whose prompt
is not in the skip-set formed by the prompts of the loaded progress
records. -/
theorem C4_resume_skip_set (data : List Pair)
    (init : List LabeledRecord) (inputs : List String) (start_idx : ℕ)
    (num_examples : Option ℕ) (freq : ℕ) (now : String) (st : SessionState)
    (h : label_session data init inputs start_idx num_examples freq now = some st)
    (hq : st.quitFlag = false) :
    st.presented = (List.range' start_idx
        (min (endIdx data.length start_idx num_examples) data.length - start_idx)).filter
      (fun i => decide ((data.getD i default).prompt ∉
        init.map (fun item => item.prompt))) :=
  (label_session_spec data init inputs start_idx num_examples freq now st h).2.2 hq

/-- C6: in a completed session the persisted snapshots are exactly the
auto-saves — one snapshot of the whole collection at each recorded label
whose per-session count is a multiple of the save frequency — followed by
one final full persistence of the collection, taken on either termination
path. -/
theorem C6_checkpoint_discipline (data : List Pair)
    (init : List LabeledRecord) (inputs : List String) (start_idx : ℕ)
    (num_examples : Option ℕ) (freq : ℕ) (now : String) (st : SessionState)
    (h : label_session data init inputs start_idx num_examples freq now = some st) :
    ∃ new checkpoints,
      st.labeled_data = init ++ new ∧
      st.labeled_this_session = new.length ∧
      st.saves = checkpoints ++ [init ++ new] ∧
      (∀ sv ∈ checkpoints, ∃ k, 0 < k ∧ k ≤ new.length ∧ k % freq = 0 ∧
        sv = init ++ new.take k) ∧
      (∀ k, 0 < k → k ≤ new.length → k % freq = 0 →
        (init ++ new.take k) ∈ checkpoints) := by
  obtain ⟨_, ⟨new, h1, h2, _, saves', h4, h5, h6⟩, _⟩ :=
    label_session_spec data init inputs start_idx num_examples freq now st h
  exact ⟨new, saves', h1, h2, h4, h5, h6⟩

/-! ### Claim theorems: preference input acceptance -/

/-- C8 as stated is false: the claim says exactly `a`, `b`, `equal`, `skip`,
`quit` are accepted and every other input string re-prompts, but the code
also accepts `q` (line 41 of `label_preferences.py`). -/
theorem C8_counterexample :
    ¬ (∀ s : String, s ∉ (["a", "b", "equal", "skip", "quit"] : List String) →
        ∀ rest, get_preference (s :: rest) = get_preference rest) := by
  intro hclaim
  have h1 := hclaim "q" (by decide) []
  have h2 : get_preference ["q"] = some ("q", []) := by decide
  rw [h2] at h1
  simp [get_preference] at h1

/-- C8 (amended): an input line is accepted exactly when its lowercased,
stripped form is one of the six strings `a`, `b`, `equal`, `skip`, `q`,
`quit`; any other line is consumed and the prompt repeats with no other
effect. -/
theorem C8_amended_input_acceptance (s : String) (rest : List String) :
    (lowerStrip s ∈ acceptedChoices →
      get_preference (s :: rest) = some (lowerStrip s, rest)) ∧
    (lowerStrip s ∉ acceptedChoices →
      get_preference (s :: rest) = get_preference rest) := by
  constructor
  · intro hmem
    rw [get_preference, if_pos hmem]
  · intro hmem
    rw [get_preference, if_neg hmem]

/-! ### Claim theorems: formatter -/

/-- C5: with `include_equal = false` the formatter output contains no record
whose `metadata.equal` is true (each `equal` input record is dropped); with
`include_equal = true` it is exactly the order-preserving projection of every
input record, so the count is preserved. -/
theorem C5_equal_exclusion (data : List LabeledRecord) :
    (∀ c ∈ convert_to_standard_format data false, c.metadata.equal = false) ∧
    convert_to_standard_format data true = data.map formatItem ∧
    (convert_to_standard_format data true).length = data.length := by
  have hmap : convert_to_standard_format data true = data.map formatItem := by
    unfold convert_to_standard_format
    have hfun : (fun item : LabeledRecord =>
        if item.equal.getD false ∧ true = false then none
        else some (formatItem item)) = fun item => some (formatItem item) := by
      funext item
      rw [if_neg (fun hcon => Bool.true_eq_false.mp hcon.2)]
    rw [hfun]
    exact List.filterMap_eq_map formatItem ▸ rfl
  refine ⟨?_, hmap, by rw [hmap, List.length_map]⟩
  intro c hc
  unfold convert_to_standard_format at hc
  rw [List.mem_filterMap] at hc
  obtain ⟨item, hitem, hmapc⟩ := hc
  by_cases he : item.equal.getD false = true
  · rw [if_pos ⟨he, rfl⟩] at hmapc
    exact absurd hmapc (by simp)
  · rw [if_neg (fun hcon => he hcon.1)] at hmapc
    injection hmapc with hmapc
    subst hmapc
    show item.equal.getD false = false
    cases hb : item.equal.getD false with
    | false => rfl
    | true => exact absurd hb he

/-! ### Claim theorems: splitter -/

/-- C2 (amended): whenever `create_splits` returns, the three returned
subsets are a permutation of the input — every record appears exactly once
across them, none duplicated or dropped — they are pairwise disjoint when the
input has no duplicates, and the test subset has `⌈|R| · test_fraction⌉`
elements. -/
theorem C2_create_splits_partition {α : Type*} [DecidableEq α]
    {data train val test : List α} {ts vs : ℚ} {seed : ℕ}
    (h : create_splits data ts vs seed = Except.ok (train, val, test)) :
    (train ++ val ++ test).Perm data ∧
    (∀ x, (x ∈ train ∨ x ∈ val ∨ x ∈ test) ↔ x ∈ data) ∧
    (data.Nodup → train.Disjoint val ∧ train.Disjoint test ∧ val.Disjoint test) ∧
    test.length = (⌈ts * (data.length : ℚ)⌉).toNat := by
  unfold create_splits at h
  cases h1 : train_test_split data ts seed with
  | error e => rw [h1] at h; exact absurd h (by simp)
  | ok p =>
    obtain ⟨tv, te⟩ := p
    simp only [h1] at h
    cases h2 : train_test_split tv (vs / (1 - ts)) seed with
    | error e => simp only [h2] at h; exact absurd h (by simp)
    | ok p2 =>
      obtain ⟨t, v⟩ := p2
      simp only [h2] at h
      injection h with h'
      injection h' with ha hb
      injection hb with hb hc
      subst ha; subst hb; subst hc
      obtain ⟨hp1, hl1⟩ := train_test_split_spec h1
      obtain ⟨hp2, _⟩ := train_test_split_spec h2
      have hperm : (t ++ v ++ te).Perm data := (hp2.append_right _).trans hp1
      refine ⟨hperm, ?_, ?_, hl1⟩
      · intro x
        rw [← hperm.mem_iff]
        simp [List.mem_append]
      · intro hnd
        have hnd2 := hperm.nodup_iff.mpr hnd
        rw [List.nodup_append, List.nodup_append, List.disjoint_append_left] at hnd2
        exact ⟨hnd2.1.2.2, hnd2.2.2.1, hnd2.2.2.2⟩

/-- C3: `create_splits` is a pure function of its inputs, so two calls with
the same records, fractions and seed return identical results (same subset
contents in the same order). -/
theorem C3_create_splits_deterministic {α : Type*} (data : List α) (ts vs : ℚ) (seed : ℕ)
    {r₁ r₂ : Except String (List α × List α × List α)}
    (h₁ : create_splits data ts vs seed = r₁)
    (h₂ : create_splits data ts vs seed = r₂) : r₁ = r₂ :=
  h₁.symm.trans h₂

/-- C7: for every fraction pair violating `0 < test_fraction + val_fraction < 1`,
`create_splits` fails with an error: either the first `train_test_split`
rejects `test_size`, or the derived `val_size / (1 - test_size)` falls outside
(0, 1) and the second one rejects it. -/
theorem C7_create_splits_invalid_fractions {α : Type*} (ts vs : ℚ)
    (hbad : ¬ (0 < ts + vs ∧ ts + vs < 1)) (data : List α) (seed : ℕ) :
    ∃ e, create_splits data ts vs seed = Except.error e := by
  by_cases hts : ts ≤ 0 ∨ 1 ≤ ts
  · refine ⟨"test_size should be a float in the (0, 1) range", ?_⟩
    unfold create_splits
    rw [train_test_split_error data seed hts]
  · push_neg at hts
    obtain ⟨hts0, hts1⟩ := hts
    have h1t : (0 : ℚ) < 1 - ts := by linarith
    have hsum : ts + vs ≤ 0 ∨ 1 ≤ ts + vs := by
      rcases not_and_or.mp hbad with h | h
      · left; linarith [not_lt.mp h]
      · right; linarith [not_lt.mp h]
    have hvp : vs / (1 - ts) ≤ 0 ∨ 1 ≤ vs / (1 - ts) := by
      rcases hsum with h | h
      · left
        apply div_nonpos_of_nonpos_of_nonneg <;> linarith
      · right
        rw [le_div_iff₀ h1t]
        linarith
    cases h1 : train_test_split data ts seed with
    | error e => exact ⟨e, by unfold create_splits; rw [h1]⟩
    | ok p =>
      obtain ⟨tv, te⟩ := p
      refine ⟨"test_size should be a float in the (0, 1) range", ?_⟩
      unfold create_splits
      simp only [h1, train_test_split_error tv seed hvp]

end Fitness

namespace Fitness

/-! ### Counterexamples and witnesses on concrete inputs

`Rat.add`/`mul`/`sub`/`inv` are `@[irreducible]` in Batteries; they are made
semireducible locally so that concrete rational arithmetic evaluates. -/

section
attribute [local semireducible] Rat.add Rat.mul Rat.sub Rat.inv

/-- C2 as stated is false: on a one-record input with the default fractions
the splitter does not return three subsets at all — sklearn's size validation
rejects the call because the resulting train set would be empty. -/
theorem C2_counterexample :
    create_splits [formatItem (labelItem samplePair "a" "" "t0")]
        (mkRat 1 10) (mkRat 1 10) 42 =
      Except.error "the resulting train set will be empty" := rfl

theorem C2_witness : ∃ train val test,
    create_splits sampleCanonicals (mkRat 1 10) (mkRat 1 10) 42 =
      Except.ok (train, val, test) ∧
    ((train ++ val ++ test).Perm sampleCanonicals ∧
     (∀ x, (x ∈ train ∨ x ∈ val ∨ x ∈ test) ↔ x ∈ sampleCanonicals) ∧
     (sampleCanonicals.Nodup →
       train.Disjoint val ∧ train.Disjoint test ∧ val.Disjoint test) ∧
     test.length = (⌈mkRat 1 10 * (sampleCanonicals.length : ℚ)⌉).toNat) := by
  obtain ⟨train, val, test, hok⟩ : ∃ t v te,
      create_splits sampleCanonicals (mkRat 1 10) (mkRat 1 10) 42 =
        Except.ok (t, v, te) := ⟨_, _, _, rfl⟩
  exact ⟨train, val, test, hok, C2_create_splits_partition hok⟩

theorem C3_witness :
    create_splits sampleCanonicals (mkRat 1 10) (mkRat 1 10) 42 =
      create_splits sampleCanonicals (mkRat 1 10) (mkRat 1 10) 42 :=
  C3_create_splits_deterministic sampleCanonicals (mkRat 1 10) (mkRat 1 10) 42 rfl rfl

theorem C7_witness :
    ¬ (0 < mkRat 6 10 + mkRat 6 10 ∧ mkRat 6 10 + mkRat 6 10 < 1) ∧
    ∃ e, create_splits sampleCanonicals (mkRat 6 10) (mkRat 6 10) 42 =
      Except.error e :=
  ⟨by decide,
    C7_create_splits_invalid_fractions (mkRat 6 10) (mkRat 6 10) (by decide)
      sampleCanonicals 42⟩

theorem C1_witness : ∃ st,
    label_session [samplePair] [] ["a", "good"] 0 none 5 "t0" = some st ∧
    ∀ rec ∈ st.labeled_data, rec ∈ ([] : List LabeledRecord) ∨
      ∃ p ∈ [samplePair],
        rec.response_a = p.response_a ∧ rec.response_b = p.response_b ∧
        (rec.preference = some "a" →
          rec.chosen = p.response_a ∧ rec.rejected = p.response_b ∧
          (formatItem rec).chosen = p.response_a ∧
          (formatItem rec).rejected = p.response_b ∧
          (formatItem rec).metadata.preference = "a") ∧
        (rec.preference = some "b" →
          rec.chosen = p.response_b ∧ rec.rejected = p.response_a ∧
          (formatItem rec).chosen = p.response_b ∧
          (formatItem rec).rejected = p.response_a ∧
          (formatItem rec).metadata.preference = "b") ∧
        (rec.preference = some "equal" →
          rec.chosen = p.response_a ∧ rec.rejected = p.response_b ∧
          (formatItem rec).chosen = p.response_a ∧
          (formatItem rec).rejected = p.response_b ∧
          (formatItem rec).metadata.preference = "equal") :=
  ⟨_, rfl,
    C1_chosen_rejected_consistency [samplePair] [] ["a", "good"] 0 none 5 "t0" _ rfl⟩

/-- C9 as stated is false: a record labeled `a` carries no `equal` key at
all — the field is absent rather than `false`. -/
theorem C9_counterexample : ∃ st,
    label_session [samplePair] [] ["a", "fine"] 0 none 5 "t0" = some st ∧
    st.labeled_data = [labelItem samplePair "a" "fine" "t0"] ∧
    (labelItem samplePair "a" "fine" "t0").preference = some "a" ∧
    (labelItem samplePair "a" "fine" "t0").equal = none :=
  ⟨_, rfl, rfl, rfl, rfl⟩

theorem C9_witness : ∃ st,
    label_session [samplePair] [] ["equal", "same"] 0 none 5 "t0" = some st ∧
    ∀ rec ∈ st.labeled_data, rec ∈ ([] : List LabeledRecord) ∨
      ((rec.preference = some "equal" ↔ rec.equal = some true) ∧
       ((rec.preference = some "a" ∨ rec.preference = some "b") →
         rec.equal = none) ∧
       (rec.preference = some "equal" → (formatItem rec).metadata.equal = true) ∧
       ((rec.preference = some "a" ∨ rec.preference = some "b") →
         (formatItem rec).metadata.equal = false)) :=
  ⟨_, rfl,
    C9_equal_field_shape [samplePair] [] ["equal", "same"] 0 none 5 "t0" _ rfl⟩

theorem C10_witness : ∃ st,
    label_session [samplePair] [] ["b", "x"] 0 none 5 "t0" = some st ∧
    st.data = [samplePair] :=
  ⟨_, rfl, C10_frame_preservation [samplePair] [] ["b", "x"] 0 none 5 "t0" _ rfl⟩

/-- Resume scenario of the specification: progress for `{Q1, Q2}`, session
over `[Q1, Q2, Q3]` starting (as the menu does) at the count of loaded
records; only index 2, the pair for `Q3`, is presented. -/
theorem C4_witness : ∃ st,
    label_session [samplePair, samplePair2, samplePair3] sampleProgress
        ["a", "ok"] 2 none 5 "t0" = some st ∧
    st.quitFlag = false ∧ st.presented = [2] :=
  ⟨_, rfl, rfl,
    C4_resume_skip_set [samplePair, samplePair2, samplePair3] sampleProgress
      ["a", "ok"] 2 none 5 "t0" _ rfl rfl⟩

/-- Quit-mid-session scenario: label the first pair, quit on the second;
exactly one record is persisted (one final save, no auto-save) and the
session counter reports one label. -/
theorem C6_witness : ∃ st,
    label_session [samplePair, samplePair2] [] ["a", "why", "quit"] 0 none 5 "t0" =
      some st ∧
    st.labeled_this_session = 1 ∧
    st.saves = [[labelItem samplePair "a" "why" "t0"]] ∧
    ∃ new checkpoints,
      st.labeled_data = [] ++ new ∧
      st.labeled_this_session = new.length ∧
      st.saves = checkpoints ++ [[] ++ new] ∧
      (∀ sv ∈ checkpoints, ∃ k, 0 < k ∧ k ≤ new.length ∧ k % 5 = 0 ∧
        sv = [] ++ new.take k) ∧
      (∀ k, 0 < k → k ≤ new.length → k % 5 = 0 →
        ([] ++ new.take k) ∈ checkpoints) :=
  ⟨_, rfl, rfl, rfl,
    C6_checkpoint_discipline [samplePair, samplePair2] [] ["a", "why", "quit"]
      0 none 5 "t0" _ rfl⟩

theorem C5_witness :
    ((∀ c ∈ convert_to_standard_format sampleLabeled false,
        c.metadata.equal = false) ∧
      convert_to_standard_format sampleLabeled true = sampleLabeled.map formatItem ∧
      (convert_to_standard_format sampleLabeled true).length = sampleLabeled.length) ∧
    (convert_to_standard_format sampleLabeled false).length = 2 :=
  ⟨C5_equal_exclusion sampleLabeled, rfl⟩

theorem C8_witness :
    lowerStrip "A " ∈ acceptedChoices ∧
    get_preference ["A ", "x"] = some ("a", ["x"]) ∧
    lowerStrip "zzz" ∉ acceptedChoices ∧
    get_preference ["zzz", "a"] = get_preference ["a"] :=
  ⟨by decide, (C8_amended_input_acceptance "A " ["x"]).1 (by decide),
   by decide, (C8_amended_input_acceptance "zzz" ["a"]).2 (by decide)⟩

end

end Fitness
